import Mathlib

/-!
Verification development for the game-projection pipeline of the
Enigma-Sports-Network repository.  The definitions below are a shallow
embedding of the pure projection logic of
`src/backend/lambdas/api_esn_generateRecap/index.mjs` (duplicated
near-verbatim in the article handler): timestamp resolution, scoring-play
and turnover extraction, side resolution, per-quarter aggregation,
final-score resolution, drive summarization and the handler's pure
assembly section (after DynamoDB retrieval, before the LLM call).

Modelling conventions:
* JavaScript numbers are modelled as integers or NaN (`JsNum`); the
  projection only ever branches on `Number.isInteger` / `Number.isFinite`
  and adds values, so non-integral finite doubles are outside the model.
  A string that `Number(...)` coerces to an integer is represented by the
  same `JsNum.int` value, since the code only observes the coerced number.
* `timestamp` / `createdAt` values are represented together with the
  verdict of `Date.parse` (`TimeVal.str (some epoch)` for a parseable
  string, `TimeVal.str none` for an unparseable one), because the code
  only observes that verdict.
* Absent object fields are `none`; `payload` itself is optional because
  the handler distinguishes a missing payload from an empty one.
* `Array.prototype.sort` with the numeric comparator is a stable sort;
  all stable sorts under a total transitive comparator agree, so it is
  modelled by a stable insertion sort on the same key.
-/

/-- A JavaScript numeric value as observed by the pipeline: a (finite)
integer or NaN. -/
inductive JsNum where
  | int (n : Int)
  | nan
deriving DecidableEq

/-- The integer behind a `JsNum` when `Number.isInteger` holds. -/
def JsNum.toInt : JsNum → Option Int
  | .int n => some n
  | .nan => none

/-- JavaScript truthiness of a numeric value: `0` and `NaN` are falsy. -/
def JsNum.truthy : JsNum → Bool
  | .int n => n != 0
  | .nan => false

/-- A `timestamp` / `createdAt` field value: a number, or a string paired
with the result of `Date.parse` on it (`none` when parsing yields NaN). -/
inductive TimeVal where
  | num (n : Int)
  | str (parsed : Option Int)
deriving DecidableEq

/-- The open `payload` map, restricted to the keys the pipeline reads. -/
structure Payload where
  type : Option String := none
  points : Option JsNum := none
  quarter : Option JsNum := none
  team : Option String := none
  gameClock : Option String := none
  scoreType : Option String := none
  description : Option String := none
  result : Option String := none
  finalScore : Option (List (String × JsNum)) := none
  finalScoreHome : Option JsNum := none
  homeScore : Option JsNum := none
  finalScoreAway : Option JsNum := none
  awayScore : Option JsNum := none
  homeTeam : Option String := none
  awayTeam : Option String := none
  driveNumber : Option JsNum := none
  plays : Option JsNum := none
  totalYards : Option JsNum := none
  yards : Option JsNum := none
deriving DecidableEq

/-- A raw game event. An absent `type` behaves as the empty string in
every comparison the pipeline makes, so `type` is a plain string. -/
structure Event where
  type : String := ""
  timestamp : Option TimeVal := none
  createdAt : Option TimeVal := none
  payload : Option Payload := none
  eventId : Option String := none
  EventID : Option String := none
deriving DecidableEq

/-- `getTs` from the handler: `const v = ev.timestamp ?? ev.createdAt;`
then a number is used directly, a parseable string gives its epoch, and
everything else yields `0`. -/
def getTs (ev : Event) : Int :=
  match ev.timestamp <|> ev.createdAt with
  | some (.num n) => n
  | some (.str (some n)) => n
  | some (.str none) => 0
  | none => 0

/-- ASCII model of JavaScript `String.prototype.toLowerCase`. -/
def jsToLower (s : String) : String := ⟨s.data.map Char.toLower⟩

/-- ASCII model of JavaScript `String.prototype.toUpperCase`. -/
def jsToUpper (s : String) : String := ⟨s.data.map Char.toUpper⟩

/-- Whether a character list starts with the given pattern. -/
def charsStartsWith : List Char → List Char → Bool
  | _, [] => true
  | [], _ :: _ => false
  | c :: cs, d :: ds => c == d && charsStartsWith cs ds

/-- Whether a character list contains the given pattern as a contiguous
run. -/
def charsIncludes : List Char → List Char → Bool
  | [], pat => pat.isEmpty
  | c :: cs, pat => charsStartsWith (c :: cs) pat || charsIncludes cs pat

/-- Model of JavaScript `String.prototype.includes`. -/
def strIncludes (s sub : String) : Bool :=
  charsIncludes s.data sub.data

/-- Drop leading whitespace characters. -/
def trimLeftChars : List Char → List Char
  | [] => []
  | c :: cs => if c.isWhitespace then trimLeftChars cs else c :: cs

/-- Model of JavaScript `String.prototype.trim`. -/
def jsTrim (s : String) : String :=
  ⟨(trimLeftChars (trimLeftChars s.data).reverse).reverse⟩

/-- `mapScoreTypeToPoints` from the handler. -/
def mapScoreTypeToPoints (type : String) : Int :=
  if type = "" then 0
  else
    match jsToUpper type with
    | "TD" => 6
    | "FG" => 3
    | "SAFETY" => 2
    | _ => 0

/-- JavaScript `a || b` on an optional string `a`: an absent or empty
string falls through to `b`. -/
def jsStrOr (a : Option String) (b : String) : String :=
  match a with
  | some s => if s = "" then b else s
  | none => b

/-- JavaScript truthiness filter on an optional string (`s || next`
chains): an empty string behaves like an absent one. -/
def truthyStr (a : Option String) : Option String :=
  a.bind (fun s => if s = "" then none else some s)

/-- The stable insertion step: a new element is placed after every
already-placed element that compares less-or-equal to it, so elements
with equal keys keep their relative order. -/
def insertSorted (le : α → α → Bool) (x : α) : List α → List α
  | [] => [x]
  | y :: ys => if le y x then y :: insertSorted le x ys else x :: y :: ys

/-- Stable sort by a comparator (insertion sort), modelling the stable
in-place `Array.prototype.sort`. -/
def stableSortBy (le : α → α → Bool) (l : List α) : List α :=
  l.foldl (fun acc x => insertSorted le x acc) []

/-- An extracted scoring play (the record pushed by
`extractScoringPlays`, which keeps the full payload). -/
structure Play where
  quarter : Int
  clock : String
  team : String
  type : String
  description : String
  points : Int
  ts : Int
  eventId : Option String
  payload : Payload
deriving DecidableEq

/-- One iteration of the `extractScoringPlays` loop: `none` mirrors
`continue`. -/
def mkScoringPlay (it : Event) : Option Play :=
  let baseType := it.type
  let p := it.payload.getD {}
  let rawPoints := p.points.bind JsNum.toInt
  let hasNumericPoints := rawPoints.isSome
  if !(baseType == "score" || hasNumericPoints) then none
  else
    match p.quarter.bind JsNum.toInt with
    | none => none
    | some quarter =>
      let team := p.team.getD ""
      if team = "" then none
      else
        let subtype := jsToUpper (jsStrOr p.scoreType (jsStrOr p.type (jsStrOr (some baseType) "")))
        some {
          quarter := quarter,
          clock := p.gameClock.getD "",
          team := team,
          type := subtype,
          description := p.description.getD "",
          points := match rawPoints with
            | some n => n
            | none => mapScoreTypeToPoints subtype,
          ts := getTs it,
          eventId := (truthyStr it.eventId) <|> (truthyStr it.EventID),
          payload := p }

/-- `extractScoringPlays`: filter, then the stable in-place sort by `ts`. -/
def extractScoringPlays (items : List Event) : List Play :=
  stableSortBy (fun a b => a.ts ≤ b.ts) (items.filterMap mkScoringPlay)

/-- An extracted turnover record. -/
structure Turnover where
  quarter : Int
  clock : String
  team : String
  type : String
  description : String
  ts : Int
deriving DecidableEq

/-- The `resultStr` local of the `extractTurnovers` loop:
`typeof p.result === 'string' ? p.result.toLowerCase() : ''`. -/
def turnoverResultStr (p : Payload) : String :=
  match p.result with
  | some s => jsToLower s
  | none => ""

/-- The `isDriveEndTurnover` local of the `extractTurnovers` loop. -/
def isDriveEndTurnover (baseType : String) (p : Payload) : Bool :=
  baseType == "drive_end" &&
    (strIncludes (turnoverResultStr p) "turnover" ||
     strIncludes (turnoverResultStr p) "interception" ||
     strIncludes (turnoverResultStr p) "fumble" ||
     strIncludes (turnoverResultStr p) "downs")

/-- The `kind` local of the `extractTurnovers` loop. -/
def turnoverKind (baseType : String) (p : Payload) : String :=
  let fallbackKind :=
    if isDriveEndTurnover baseType p then
      (if turnoverResultStr p = "" then "turnover" else turnoverResultStr p)
    else ""
  match p.type with
  | some t => if t = "" then fallbackKind else t
  | none => fallbackKind

/-- One iteration of the `extractTurnovers` loop. -/
def mkTurnover (it : Event) : Option Turnover :=
  let baseType := it.type
  let p := it.payload.getD {}
  let isTurnoverEvent := baseType == "turnover"
  if !(isTurnoverEvent || isDriveEndTurnover baseType p) then none
  else
    match p.quarter.bind JsNum.toInt with
    | none => none
    | some quarter =>
      let team := p.team.getD ""
      if team = "" then none
      else
        some {
          quarter := quarter,
          clock := p.gameClock.getD "",
          team := team,
          type := turnoverKind baseType p,
          description := p.description.getD "",
          ts := getTs it }

/-- `extractTurnovers`: filter, then the stable sort by `ts`. -/
def extractTurnovers (items : List Event) : List Turnover :=
  stableSortBy (fun a b => a.ts ≤ b.ts) (items.filterMap mkTurnover)

/-- The three-valued outcome of `resolveSide`. -/
inductive Side where
  | home
  | away
deriving DecidableEq

/-- `resolveSide(teamValue, homeTeam, awayTeam)` from the handler. -/
def resolveSide (teamValue homeTeam awayTeam : String) : Option Side :=
  if teamValue = "" then none
  else
    let t := jsToLower (jsTrim teamValue)
    let homeNorm := jsToLower (jsTrim homeTeam)
    let awayNorm := jsToLower (jsTrim awayTeam)
    if t = "home" then some .home
    else if t = "away" then some .away
    else if homeNorm ≠ "" ∧ t = homeNorm then some .home
    else if awayNorm ≠ "" ∧ t = awayNorm then some .away
    else none

/-- One row of the per-quarter scoreboard. -/
structure QuarterScoreEntry where
  quarter : Int
  homePoints : Int
  awayPoints : Int
deriving DecidableEq

/-- The mutable state of the first `groupPointsByQuarter` loop: the
`byQuarter` map (total function, absent keys read as `(0, 0)` via the
`|| { home: 0, away: 0 }` default) and the running `maxQ`. -/
structure QuarterAcc where
  byQuarter : Int → Int × Int
  maxQ : Int

/-- One iteration of the bucketing loop of `groupPointsByQuarter`.
`Number(sp.points) || 0` is `sp.points` itself, since extracted points
are always finite. -/
def quarterStep (homeTeam awayTeam : String) (acc : QuarterAcc) (sp : Play) : QuarterAcc :=
  let maxQ := if sp.quarter > acc.maxQ then sp.quarter else acc.maxQ
  match resolveSide sp.team homeTeam awayTeam with
  | none => { acc with maxQ := maxQ }
  | some side =>
    let bucket := acc.byQuarter sp.quarter
    let bucket2 := match side with
      | .home => (bucket.1 + sp.points, bucket.2)
      | .away => (bucket.1, bucket.2 + sp.points)
    { byQuarter := fun q => if q = sp.quarter then bucket2 else acc.byQuarter q,
      maxQ := maxQ }

/-- The second loop of `groupPointsByQuarter`: emit `n` entries starting
at quarter `q`, accumulating the cumulative scoreboard. -/
def cumQuarters (f : Int → Int × Int) : Int → Nat → Int → Int → List QuarterScoreEntry
  | _, 0, _, _ => []
  | q, n + 1, ch, ca =>
    let b := f q
    { quarter := q, homePoints := ch + b.1, awayPoints := ca + b.2 } ::
      cumQuarters f (q + 1) n (ch + b.1) (ca + b.2)

/-- `groupPointsByQuarter(scoringPlays, homeTeam, awayTeam)`. -/
def groupPointsByQuarter (scoringPlays : List Play) (homeTeam awayTeam : String) :
    List QuarterScoreEntry :=
  let acc := scoringPlays.foldl (quarterStep homeTeam awayTeam)
    { byQuarter := fun _ => (0, 0), maxQ := 4 }
  cumQuarters acc.byQuarter 1 acc.maxQ.toNat 0 0

/-- Key selection in the `game_end.finalScore` map: an exact key match,
then a case-insensitive one. -/
def findScoreKey (fs : List (String × JsNum)) (team : String) : Option String :=
  match fs.find? (fun kv => kv.1 == team) with
  | some kv => some kv.1
  | none => (fs.find? (fun kv => jsToLower kv.1 == jsToLower team)).map (fun kv => kv.1)

/-- Property lookup on the `finalScore` map value. -/
def scoreMapGet (fs : List (String × JsNum)) (k : String) : Option JsNum :=
  (fs.find? (fun kv => kv.1 == k)).map (fun kv => kv.2)

/-- Tier 1 of the final-score resolution, for one side: the value under
the matched key of `payload.finalScore`, when it is an integer. -/
def finalFromScoreMap (p : Payload) (team : String) : Option Int :=
  match p.finalScore with
  | none => none
  | some fs =>
    match findScoreKey fs team with
    | none => none
    | some k => (scoreMapGet fs k).bind JsNum.toInt

/-- Tier 2 for the home side: `Number(p.finalScoreHome ?? p.homeScore ?? NaN)`
when it is an integer. -/
def legacyHome (p : Payload) : Option Int :=
  (p.finalScoreHome <|> p.homeScore).bind JsNum.toInt

/-- Tier 2 for the away side. -/
def legacyAway (p : Payload) : Option Int :=
  (p.finalScoreAway <|> p.awayScore).bind JsNum.toInt

/-- Tier 3: sum of scoring-play points grouped by resolved side
(`sp.points || 0` is `sp.points` for extracted plays). -/
def sumPlayPoints (plays : List Play) (homeTeam awayTeam : String) : Int × Int :=
  plays.foldl (fun acc sp =>
    match resolveSide sp.team homeTeam awayTeam with
    | some .home => (acc.1 + sp.points, acc.2)
    | some .away => (acc.1, acc.2 + sp.points)
    | none => acc) (0, 0)

/-- The final-score resolution block of the handler (lines 609-662):
per-side the map value is taken when it is an integer, otherwise the
legacy fields; if either side is still not an integer, both are reset to
NaN and tier 3 computes both sides. -/
def resolveFinalScore (gameEnd : Option Event) (plays : List Play)
    (homeTeam awayTeam : String) : Int × Int :=
  let viaEnd : Option (Int × Int) :=
    match gameEnd.bind (fun e => e.payload) with
    | none => none
    | some p =>
      let fh := (finalFromScoreMap p homeTeam) <|> legacyHome p
      let fa := (finalFromScoreMap p awayTeam) <|> legacyAway p
      match fh, fa with
      | some h, some a => some (h, a)
      | _, _ => none
  match viaEnd with
  | some s => s
  | none => sumPlayPoints plays homeTeam awayTeam

/-- The `current` variable of `summarizeDrives` while a drive is open:
its start event and the captured-events list (the open drive's
`endEvent` is always `null`). -/
structure CurrentDrive where
  startEvent : Event
  events : List Event
deriving DecidableEq

/-- A drive group as pushed onto `drives` by the grouping loop of
`summarizeDrives`, before the summary mapping. -/
structure DriveGroup where
  startEvent : Event
  endEvent : Option Event
  events : List Event
deriving DecidableEq

/-- Closing an open drive: it is pushed only when its captured-events
list is non-empty (used by the `drive_start` branch and at end of
stream). -/
def closeOpenDrive : Option CurrentDrive → List DriveGroup
  | none => []
  | some c =>
    if c.events.isEmpty then []
    else [{ startEvent := c.startEvent, endEvent := none, events := c.events }]

/-- The grouping loop of `summarizeDrives`, parameterized by the current
open drive. A `drive_start` closes the open drive (emitting it only when
non-empty) and opens a new one; any other event while a drive is open is
appended, and a `drive_end` additionally closes and emits the drive. -/
def drivesGo : Option CurrentDrive → List Event → List DriveGroup
  | cur, [] => closeOpenDrive cur
  | cur, ev :: rest =>
    if ev.type = "drive_start" then
      closeOpenDrive cur ++ drivesGo (some { startEvent := ev, events := [] }) rest
    else
      match cur with
      | none => drivesGo none rest
      | some c =>
        let events := c.events ++ [ev]
        if ev.type = "drive_end" then
          { startEvent := c.startEvent, endEvent := some ev, events := events } ::
            drivesGo none rest
        else
          drivesGo (some { startEvent := c.startEvent, events := events }) rest

/-- The grouping loop of `summarizeDrives` started in the idle state. -/
def groupDrives (items : List Event) : List DriveGroup :=
  drivesGo none items

/-- The value of the `current` variable after the grouping loop has
consumed the given events (mirrors the branch structure of `drivesGo`). -/
def stateGo : Option CurrentDrive → List Event → Option CurrentDrive
  | cur, [] => cur
  | cur, ev :: rest =>
    if ev.type = "drive_start" then stateGo (some { startEvent := ev, events := [] }) rest
    else
      match cur with
      | none => stateGo none rest
      | some c =>
        if ev.type = "drive_end" then stateGo none rest
        else stateGo (some { startEvent := c.startEvent, events := c.events ++ [ev] }) rest

/-- First truthy value of `a || b || NaN` over optional JS numbers. -/
def firstTruthyNum (a b : Option JsNum) : JsNum :=
  match a with
  | some v =>
    if v.truthy then v
    else
      match b with
      | some w => if w.truthy then w else .nan
      | none => .nan
  | none =>
    match b with
    | some w => if w.truthy then w else .nan
    | none => .nan

/-- A summarized drive as returned by `summarizeDrives`. `plays` and
`yards` keep the raw JS number because an explicit end-payload value is
used whenever the field holds a number (even NaN). -/
structure DriveSummary where
  quarter : Option Int
  team : String
  driveNumber : Int
  plays : JsNum
  yards : JsNum
  result : String
deriving DecidableEq

/-- The summary mapping of `summarizeDrives` for one drive group at
positional index `idx`. -/
def driveToSummary (idx : Nat) (d : DriveGroup) : DriveSummary :=
  let startPayload := d.startEvent.payload.getD {}
  let endPayload := match d.endEvent with
    | some e => e.payload.getD {}
    | none => ({} : Payload)
  let firstEvPayloadTeam := d.events.head?.bind (fun e => (e.payload.getD {}).team)
  let firstEvPayloadQuarter := d.events.head?.bind (fun e => (e.payload.getD {}).quarter)
  let team := jsStrOr startPayload.team (jsStrOr firstEvPayloadTeam "Unknown")
  let quarter := match firstTruthyNum startPayload.quarter firstEvPayloadQuarter with
    | .int n => some n
    | .nan => none
  let driveNumber := match firstTruthyNum startPayload.driveNumber endPayload.driveNumber with
    | .int n => n
    | .nan => (idx : Int) + 1
  let plays := match endPayload.plays with
    | some v => v
    | none => JsNum.int (Int.ofNat ((d.events.filter (fun e => e.type == "play")).length))
  let yardsSum := d.events.foldl (fun acc e =>
    match (e.payload.getD {}).yards with
    | some (.int n) => acc + n
    | _ => acc) 0
  let yards := match endPayload.totalYards with
    | some v => v
    | none => JsNum.int yardsSum
  { quarter := quarter, team := team, driveNumber := driveNumber,
    plays := plays, yards := yards, result := jsStrOr endPayload.result "" }

/-- `summarizeDrives(items)`: group, then map each drive with its index. -/
def summarizeDrives (items : List Event) : List DriveSummary :=
  (groupDrives items).enum.map (fun p => driveToSummary p.1 p.2)

/-- A scoring play as it appears in the assembled recap object. -/
structure ScoringPlayOut where
  quarter : Int
  clock : String
  team : String
  type : String
  description : String
  points : Int
  eventId : Option String
deriving DecidableEq

/-- A turnover as it appears in the assembled recap object. -/
structure TurnoverOut where
  quarter : Int
  clock : String
  team : String
  type : String
  description : String
deriving DecidableEq

/-- The assembled projection (the `recapInput` object built by the
handler before the LLM call). -/
structure RecapInput where
  gameId : String
  homeTeam : String
  awayTeam : String
  finalScoreHome : Int
  finalScoreAway : Int
  quarters : List QuarterScoreEntry
  scoringPlays : List ScoringPlayOut
  turnovers : List TurnoverOut
  drives : List DriveSummary
  eventsCount : Nat
deriving DecidableEq

/-- Outcome of the handler's pure section: one of the 404 not-found
responses, or the assembled 200 projection. -/
inductive BuildResult where
  | notFound (message : String)
  | ready (recap : RecapInput)
deriving DecidableEq

/-- The HTTP status code of a pure-section outcome. -/
def BuildResult.statusCode : BuildResult → Nat
  | .notFound _ => 404
  | .ready _ => 200

/-- The in-place stable sort `items.sort((a, b) => getTs(a) - getTs(b))`. -/
def sortEvents (items : List Event) : List Event :=
  stableSortBy (fun a b => getTs a ≤ getTs b) items

/-- Projection of an extracted play to its recap shape
(`eventId: sp.eventId || undefined`). -/
def playOut (sp : Play) : ScoringPlayOut :=
  { quarter := sp.quarter, clock := sp.clock, team := sp.team, type := sp.type,
    description := sp.description, points := sp.points, eventId := truthyStr sp.eventId }

/-- Projection of an extracted turnover to its recap shape. -/
def turnoverOut (t : Turnover) : TurnoverOut :=
  { quarter := t.quarter, clock := t.clock, team := t.team, type := t.type,
    description := t.description }

/-- The handler's pure pipeline over the retrieved event list (lines
575-714 of the recap handler, without the DynamoDB and LLM glue): sort,
locate `game_start`, extract, resolve the final score, aggregate
quarters, classify the insufficient-data state, and assemble. -/
def buildRecap (gameId : String) (items : List Event) : BuildResult :=
  if items.isEmpty then .notFound "No events found for gameId"
  else
    let sorted := sortEvents items
    match sorted.find? (fun i => i.type == "game_start") with
    | none => .notFound "Game metadata (game_start) missing; recap cannot be built yet"
    | some gameStart =>
      match gameStart.payload with
      | none => .notFound "Game metadata (game_start) missing; recap cannot be built yet"
      | some gsp =>
        let homeTeam := gsp.homeTeam.getD ""
        let awayTeam := gsp.awayTeam.getD ""
        if homeTeam = "" ∨ awayTeam = "" then
          .notFound "game_start missing homeTeam or awayTeam; recap cannot be built yet"
        else
          let scoringPlaysRaw := extractScoringPlays sorted
          let turnoversRaw := extractTurnovers sorted
          let gameEnd := sorted.find? (fun i => i.type == "game_end")
          let final := resolveFinalScore gameEnd scoringPlaysRaw homeTeam awayTeam
          let quarters := groupPointsByQuarter scoringPlaysRaw homeTeam awayTeam
          if scoringPlaysRaw.isEmpty && turnoversRaw.isEmpty && gameEnd.isNone then
            .notFound "Game lacks scoring/ending data; recap cannot be built yet"
          else
            .ready {
              gameId := gameId,
              homeTeam := homeTeam,
              awayTeam := awayTeam,
              finalScoreHome := final.1,
              finalScoreAway := final.2,
              quarters := quarters,
              scoringPlays := scoringPlaysRaw.map playOut,
              turnovers := turnoversRaw.map turnoverOut,
              drives := summarizeDrives sorted,
              eventsCount := sorted.length }

/-! ## Properties of the timestamp resolver -/

/-- C3 counterexample: an event whose `timestamp` is a string that does
not parse as a date and whose `createdAt` parses to epoch 1700000000000
resolves to `0`; it does not fall back to the `createdAt` epoch as the
claim states, because `timestamp ?? createdAt` already selects the
present (but unparseable) `timestamp`. -/
theorem getTs_unparsable_timestamp_cex :
    getTs { timestamp := some (.str none), createdAt := some (.str (some 1700000000000)) } = 0 ∧
    getTs { timestamp := some (.str none), createdAt := some (.str (some 1700000000000)) } ≠
      1700000000000 := by
  exact ⟨rfl, by decide⟩

/-- C3 (amended): `getTs` uses a numeric `timestamp` directly and a
parseable string timestamp's epoch; `createdAt` is consulted under the
same two rules only when `timestamp` is absent entirely; a present but
unparseable string `timestamp` yields `0` even when `createdAt` holds a
parseable date, and `0` is also returned when neither field is usable. -/
theorem getTs_spec (ev : Event) :
    (∀ n : Int, ev.timestamp = some (.num n) → getTs ev = n) ∧
    (∀ e : Int, ev.timestamp = some (.str (some e)) → getTs ev = e) ∧
    (ev.timestamp = some (.str none) → getTs ev = 0) ∧
    (ev.timestamp = none →
      (∀ n : Int, ev.createdAt = some (.num n) → getTs ev = n) ∧
      (∀ e : Int, ev.createdAt = some (.str (some e)) → getTs ev = e) ∧
      (ev.createdAt = some (.str none) → getTs ev = 0) ∧
      (ev.createdAt = none → getTs ev = 0)) := by
  refine ⟨fun n h => ?_, fun e h => ?_, fun h => ?_, fun h => ⟨fun n h2 => ?_, fun e h2 => ?_, fun h2 => ?_, fun h2 => ?_⟩⟩ <;>
    simp [getTs, h, *]

/-- Witness for `getTs_spec` at a concrete numeric timestamp. -/
theorem getTs_spec_witness :
    getTs { timestamp := some (.num 42) } = 42 :=
  (getTs_spec { timestamp := some (.num 42) }).1 42 rfl

/-! ## Properties of the final-score resolver -/

/-- C1 counterexample: on a `game_end` payload with
`finalScore = { Titans: 30 }` and legacy `awayScore = 27` (teams
Titans/Wraiths), the map resolves only the home side; its value 30 is
nevertheless kept and merged with the legacy away value 27, instead of
being discarded and tier 3 (which would give `(0, 0)` here) consulted
for both sides. -/
theorem finalScore_partial_merge_cex :
    finalFromScoreMap
      { finalScore := some [("Titans", .int 30)], awayScore := some (.int 27) } "Wraiths" = none ∧
    sumPlayPoints [] "Titans" "Wraiths" = (0, 0) ∧
    resolveFinalScore
      (some { type := "game_end",
              payload := some { finalScore := some [("Titans", .int 30)],
                                awayScore := some (.int 27) } })
      [] "Titans" "Wraiths" = (30, 27) := by
  refine ⟨by decide, by decide, by decide⟩

/-- C1 (amended): within the `game_end` payload the first two tiers fall
back per side — each side independently takes the `finalScore`-map value
when that is an integer and otherwise the legacy
`finalScoreHome`/`homeScore` (resp. `finalScoreAway`/`awayScore`) value,
so a partial map result is merged with legacy values rather than
discarded. The all-or-nothing reset applies to the combined `game_end`
result: when either side is still not an integer after both the map and
the legacy fields, both sides are discarded and tier 3 sums the scoring
plays for both sides. -/
theorem finalScore_tier_spec (ev : Event) (p : Payload) (plays : List Play)
    (homeTeam awayTeam : String) (hp : ev.payload = some p) :
    (∀ x y : Int, finalFromScoreMap p homeTeam = some x →
      finalFromScoreMap p awayTeam = some y →
      resolveFinalScore (some ev) plays homeTeam awayTeam = (x, y)) ∧
    (∀ x y : Int, finalFromScoreMap p homeTeam = some x →
      finalFromScoreMap p awayTeam = none → legacyAway p = some y →
      resolveFinalScore (some ev) plays homeTeam awayTeam = (x, y)) ∧
    (∀ x y : Int, finalFromScoreMap p homeTeam = none → legacyHome p = some x →
      finalFromScoreMap p awayTeam = some y →
      resolveFinalScore (some ev) plays homeTeam awayTeam = (x, y)) ∧
    ((finalFromScoreMap p homeTeam <|> legacyHome p) = none ∨
      (finalFromScoreMap p awayTeam <|> legacyAway p) = none →
      resolveFinalScore (some ev) plays homeTeam awayTeam =
        sumPlayPoints plays homeTeam awayTeam) ∧
    (resolveFinalScore none plays homeTeam awayTeam =
      sumPlayPoints plays homeTeam awayTeam) := by
  refine ⟨fun x y h1 h2 => ?_, fun x y h1 h2 h3 => ?_, fun x y h1 h2 h3 => ?_,
    fun h => ?_, ?_⟩
  · simp [resolveFinalScore, hp, h1, h2]
  · simp [resolveFinalScore, hp, h1, h2, h3]
  · simp [resolveFinalScore, hp, h1, h2, h3]
  · rcases h with h | h <;> simp [resolveFinalScore, hp, h]
  · simp [resolveFinalScore]

/-- Witness for `finalScore_tier_spec`: the per-side merge at a concrete
input (map home value 30, legacy away value 27). -/
theorem finalScore_tier_spec_witness :
    resolveFinalScore
      (some { type := "game_end",
              payload := some { finalScore := some [("Titans", .int 30)],
                                homeScore := some (.int 99),
                                awayScore := some (.int 27) } })
      [] "Titans" "Wraiths" = (30, 27) :=
  ((finalScore_tier_spec
      { type := "game_end",
        payload := some { finalScore := some [("Titans", .int 30)],
                          homeScore := some (.int 99),
                          awayScore := some (.int 27) } }
      { finalScore := some [("Titans", .int 30)],
        homeScore := some (.int 99),
        awayScore := some (.int 27) }
      [] "Titans" "Wraiths" rfl).2.1) 30 27 (by decide) (by decide) (by decide)

/-! ## Properties of the drive summarizer -/

/-- C4 counterexample: in the stream
`[drive_start s1, drive_start s2, play, drive_end]` the machine is in
the in-drive state when `drive_start s2` arrives; s2 is not appended to
the current drive's captured list — instead it closes the (empty, hence
dropped) drive of s1 and starts a new drive, and the single emitted
drive starts at s2 and captures only `[play, drive_end]`. -/
theorem driveStart_restart_cex :
    groupDrives
      [{ type := "drive_start", eventId := some "s1" },
       { type := "drive_start", eventId := some "s2" },
       { type := "play" }, { type := "drive_end" }] =
      [{ startEvent := { type := "drive_start", eventId := some "s2" },
         endEvent := some { type := "drive_end" },
         events := [{ type := "play" }, { type := "drive_end" }] }] ∧
    ((groupDrives
      [{ type := "drive_start", eventId := some "s1" },
       { type := "drive_start", eventId := some "s2" },
       { type := "play" }, { type := "drive_end" }]).all
        (fun d => !(d.events.contains
          ({ type := "drive_start", eventId := some "s2" } : Event)))) = true := by
  exact ⟨rfl, rfl⟩

/-- C4 (amended): while a drive is open, every event that is neither a
`drive_start` nor a `drive_end` is appended to its captured-events list;
a `drive_end` is appended and then closes and emits the drive, returning
the machine to idle; a `drive_start`, however, is not appended — it
closes the current drive (emitting it only when its captured list is
non-empty, with no end event) and immediately opens a new drive started
by that event. -/
theorem inDrive_transition_spec (c : CurrentDrive) (ev : Event) (rest : List Event) :
    (ev.type ≠ "drive_start" → ev.type ≠ "drive_end" →
      drivesGo (some c) (ev :: rest) =
        drivesGo (some { startEvent := c.startEvent, events := c.events ++ [ev] }) rest) ∧
    (ev.type = "drive_end" →
      drivesGo (some c) (ev :: rest) =
        { startEvent := c.startEvent, endEvent := some ev, events := c.events ++ [ev] } ::
          drivesGo none rest) ∧
    (ev.type = "drive_start" →
      drivesGo (some c) (ev :: rest) =
        (if c.events.isEmpty then []
         else [{ startEvent := c.startEvent, endEvent := none, events := c.events }]) ++
          drivesGo (some { startEvent := ev, events := [] }) rest) := by
  refine ⟨fun h1 h2 => ?_, fun h => ?_, fun h => ?_⟩
  · simp [drivesGo, h1, h2]
  · have h1 : ev.type ≠ "drive_start" := by rw [h]; decide
    simp [drivesGo, h1, h]
  · simp [drivesGo, h, closeOpenDrive]

/-- Witness for `inDrive_transition_spec`: a `play` event is appended to
the open drive's captured list. -/
theorem inDrive_transition_spec_witness :
    drivesGo (some { startEvent := { type := "drive_start" }, events := [] })
      [{ type := "play" }] =
      drivesGo (some { startEvent := { type := "drive_start" },
                       events := [({ type := "play" } : Event)] }) [] :=
  (inDrive_transition_spec { startEvent := { type := "drive_start" }, events := [] }
    { type := "play" } []).1 (by decide) (by decide)

/-! ## Properties of the turnover extractor -/

/-- C6 counterexample: a plain `turnover` event without `payload.type`
is emitted with kind `""` (not `"turnover"` as the claim states), and a
qualifying `drive_end` event with `result = "Interception"` is emitted
with the lower-cased kind `"interception"`, not the raw result string. -/
theorem turnover_kind_cex :
    extractTurnovers
      [{ type := "turnover", payload := some { quarter := some (.int 1), team := some "A" } },
       { type := "drive_end",
         payload := some { quarter := some (.int 2), team := some "B",
                           result := some "Interception" } }] =
      [{ quarter := 1, clock := "", team := "A", type := "", description := "", ts := 0 },
       { quarter := 2, clock := "", team := "B", type := "interception", description := "",
         ts := 0 }] ∧
    ("" : String) ≠ "turnover" ∧ ("interception" : String) ≠ "Interception" := by
  refine ⟨by decide, by decide, by decide⟩


/-- A successfully extracted turnover passed the qualification guard and
carries the kind computed by `turnoverKind`. -/
theorem mkTurnover_type_eq (ev : Event) (tno : Turnover)
    (h : mkTurnover ev = some tno) :
    (ev.type == "turnover" || isDriveEndTurnover ev.type (ev.payload.getD {})) = true ∧
    tno.type = turnoverKind ev.type (ev.payload.getD {}) := by
  simp only [mkTurnover] at h
  split at h
  · exact absurd h (by simp)
  · rename_i hguard
    constructor
    · rcases Bool.eq_false_or_eq_true
        (ev.type == "turnover" || isDriveEndTurnover ev.type (ev.payload.getD {})) with hc | hc
      · exact hc
      · rw [hc] at hguard
        simp at hguard
    · split at h
      · exact absurd h (by simp)
      · split at h
        · exact absurd h (by simp)
        · simp only [Option.some.injEq] at h
          rw [← h]

/-- A qualifying `drive_end` turnover has a non-empty lower-cased result
string (it contains one of the four marker substrings). -/
theorem isDriveEndTurnover_resultStr_ne (t : String) (p : Payload)
    (h : isDriveEndTurnover t p = true) : turnoverResultStr p ≠ "" := by
  intro hempty
  rw [isDriveEndTurnover, hempty] at h
  exact absurd h (by simp [show strIncludes "" "turnover" = false from by decide,
    show strIncludes "" "interception" = false from by decide,
    show strIncludes "" "fumble" = false from by decide,
    show strIncludes "" "downs" = false from by decide])

/-- C6 (amended): an extracted turnover's kind is `payload.type` when
that is present as a non-empty string; otherwise, for a turnover derived
from a `drive_end` event, it is the lower-cased `payload.result` string
(not the raw one); and otherwise — a plain `turnover` event without a
usable `payload.type` — it is the empty string, not `"turnover"`. -/
theorem turnover_kind_spec (ev : Event) (tno : Turnover)
    (h : mkTurnover ev = some tno) :
    (∀ s, (ev.payload.getD {}).type = some s → s ≠ "" → tno.type = s) ∧
    (((ev.payload.getD {}).type = none ∨ (ev.payload.getD {}).type = some "") →
      ev.type = "drive_end" →
      tno.type = jsToLower ((ev.payload.getD {}).result.getD "")) ∧
    (((ev.payload.getD {}).type = none ∨ (ev.payload.getD {}).type = some "") →
      ev.type ≠ "drive_end" → tno.type = "") := by
  obtain ⟨hguard, hkind⟩ := mkTurnover_type_eq ev tno h
  refine ⟨fun s hs hne => ?_, fun hty hev => ?_, fun hty hev => ?_⟩
  · rw [hkind, turnoverKind, hs]
    simp [hne]
  · have hdet : isDriveEndTurnover ev.type (ev.payload.getD {}) = true := by
      rcases (Bool.or_eq_true _ _).mp hguard with hg | hg
      · rw [hev] at hg
        exact absurd hg (by decide)
      · exact hg
    have hne := isDriveEndTurnover_resultStr_ne _ _ hdet
    have hres : turnoverResultStr (ev.payload.getD {}) =
        jsToLower ((ev.payload.getD {}).result.getD "") := by
      rw [turnoverResultStr]
      cases (ev.payload.getD {}).result <;> rfl
    rw [hkind, turnoverKind]
    rcases hty with hty | hty <;> rw [hty] <;> simpa [hdet, hne] using hres
  · have hdet : isDriveEndTurnover ev.type (ev.payload.getD {}) = false := by
      rw [isDriveEndTurnover]
      have hb : (ev.type == "drive_end") = false := by simpa using hev
      simp [hb]
    rw [hkind, turnoverKind]
    rcases hty with hty | hty <;> rw [hty] <;> simp [hdet]

/-- Witness for `turnover_kind_spec`: a plain `turnover` event without a
payload `type` yields kind `""`. -/
theorem turnover_kind_spec_witness :
    ({ quarter := 1, clock := "", team := "A", type := "", description := "", ts := 0 } :
      Turnover).type = "" :=
  (turnover_kind_spec
    { type := "turnover", payload := some { quarter := some (.int 1), team := some "A" } }
    { quarter := 1, clock := "", team := "A", type := "", description := "", ts := 0 }
    (by decide)).2.2 (Or.inl rfl) (by decide)

/-! ## Properties of the stable sort -/

/-- Inserting adds one to the length. -/
theorem length_insertSorted (le : α → α → Bool) (x : α) (l : List α) :
    (insertSorted le x l).length = l.length + 1 := by
  induction l with
  | nil => rfl
  | cons y ys ih =>
    simp only [insertSorted]
    split <;> simp [ih]

/-- Membership in an insertion. -/
theorem mem_insertSorted (le : α → α → Bool) (x a : α) (l : List α) :
    a ∈ insertSorted le x l ↔ a = x ∨ a ∈ l := by
  induction l with
  | nil => simp [insertSorted]
  | cons y ys ih =>
    simp only [insertSorted]
    split
    all_goals simp only [List.mem_cons, ih]
    all_goals tauto

/-- Length of the sorting fold. -/
theorem length_sortFold (le : α → α → Bool) (l acc : List α) :
    (l.foldl (fun acc x => insertSorted le x acc) acc).length = acc.length + l.length := by
  induction l generalizing acc with
  | nil => simp
  | cons x xs ih =>
    simp only [List.foldl_cons]
    rw [ih, length_insertSorted, List.length_cons]
    omega

/-- Membership in the sorting fold. -/
theorem mem_sortFold (le : α → α → Bool) (l acc : List α) (a : α) :
    a ∈ l.foldl (fun acc x => insertSorted le x acc) acc ↔ a ∈ acc ∨ a ∈ l := by
  induction l generalizing acc with
  | nil => simp
  | cons x xs ih =>
    simp only [List.foldl_cons]
    rw [ih, mem_insertSorted]
    simp only [List.mem_cons]
    tauto

/-- The stable sort preserves length. -/
theorem length_stableSortBy (le : α → α → Bool) (l : List α) :
    (stableSortBy le l).length = l.length := by
  simpa [stableSortBy] using length_sortFold le l []

/-- The stable sort preserves membership. -/
theorem mem_stableSortBy (le : α → α → Bool) (l : List α) (a : α) :
    a ∈ stableSortBy le l ↔ a ∈ l := by
  simpa [stableSortBy] using mem_sortFold le l [] a

/-- The stable sort preserves emptiness. -/
theorem isEmpty_stableSortBy (le : α → α → Bool) (l : List α) :
    (stableSortBy le l).isEmpty = l.isEmpty := by
  cases l with
  | nil => rfl
  | cons x xs =>
    have h := length_stableSortBy le (x :: xs)
    cases hs : stableSortBy le (x :: xs) with
    | nil =>
      rw [hs] at h
      simp at h
    | cons y ys => rfl

/-- Inserting into a sorted list keeps it sorted, for a transitive total
comparator. -/
theorem pairwise_insertSorted (le : α → α → Bool)
    (htrans : ∀ a b c, le a b = true → le b c = true → le a c = true)
    (htotal : ∀ a b, le a b = true ∨ le b a = true)
    (x : α) (l : List α) (hl : l.Pairwise (fun a b => le a b = true)) :
    (insertSorted le x l).Pairwise (fun a b => le a b = true) := by
  induction l with
  | nil => simp [insertSorted]
  | cons y ys ih =>
    rcases List.pairwise_cons.mp hl with ⟨hy, hys⟩
    simp only [insertSorted]
    split
    · rename_i hyx
      refine List.pairwise_cons.mpr ⟨?_, ih hys⟩
      intro z hz
      rcases (mem_insertSorted le x z ys).mp hz with rfl | hz2
      · exact hyx
      · exact hy z hz2
    · rename_i hyx
      have hxy : le x y = true := by
        rcases htotal x y with h | h
        · exact h
        · exact absurd h hyx
      refine List.pairwise_cons.mpr ⟨?_, hl⟩
      intro z hz
      rcases List.mem_cons.mp hz with rfl | hz2
      · exact hxy
      · exact htrans x y z hxy (hy z hz2)

/-- The sorting fold produces a sorted list. -/
theorem pairwise_sortFold (le : α → α → Bool)
    (htrans : ∀ a b c, le a b = true → le b c = true → le a c = true)
    (htotal : ∀ a b, le a b = true ∨ le b a = true)
    (l : List α) : ∀ (acc : List α), acc.Pairwise (fun a b => le a b = true) →
    (l.foldl (fun acc x => insertSorted le x acc) acc).Pairwise (fun a b => le a b = true) := by
  induction l with
  | nil => intro acc hacc; simpa using hacc
  | cons x xs ih =>
    intro acc hacc
    simp only [List.foldl_cons]
    exact ih _ (pairwise_insertSorted le htrans htotal x acc hacc)

/-- The stable sort produces a sorted list. -/
theorem pairwise_stableSortBy (le : α → α → Bool)
    (htrans : ∀ a b c, le a b = true → le b c = true → le a c = true)
    (htotal : ∀ a b, le a b = true ∨ le b a = true) (l : List α) :
    (stableSortBy le l).Pairwise (fun a b => le a b = true) :=
  pairwise_sortFold le htrans htotal l [] (List.Pairwise.nil)

/-- An element that compares after everything in the list is inserted at
the end. -/
theorem insertSorted_eq_append (le : α → α → Bool) (x : α) (acc : List α)
    (h : ∀ y ∈ acc, le y x = true) :
    insertSorted le x acc = acc ++ [x] := by
  induction acc with
  | nil => rfl
  | cons y ys ih =>
    simp only [insertSorted]
    rw [if_pos (h y (List.mem_cons_self y ys))]
    rw [ih (fun z hz => h z (List.mem_cons_of_mem y hz))]
    rfl

/-- The sorting fold leaves an already sorted suffix unchanged. -/
theorem sortFold_of_sorted (le : α → α → Bool) (l : List α) :
    ∀ (acc : List α), l.Pairwise (fun a b => le a b = true) →
    (∀ y ∈ acc, ∀ x ∈ l, le y x = true) →
    l.foldl (fun acc x => insertSorted le x acc) acc = acc ++ l := by
  induction l with
  | nil => intro acc _ _; simp
  | cons x xs ih =>
    intro acc hl hcross
    rcases List.pairwise_cons.mp hl with ⟨hx, hxs⟩
    simp only [List.foldl_cons]
    rw [insertSorted_eq_append le x acc (fun y hy => hcross y hy x (List.mem_cons_self x xs))]
    have hcross2 : ∀ y ∈ acc ++ [x], ∀ z ∈ xs, le y z = true := by
      intro y hy z hz
      rcases List.mem_append.mp hy with hy2 | hy2
      · exact hcross y hy2 z (List.mem_cons_of_mem x hz)
      · rcases List.mem_singleton.mp hy2 with rfl
        exact hx z hz
    rw [ih (acc ++ [x]) hxs hcross2]
    simp

/-- The stable sort does not change a sorted list. -/
theorem stableSortBy_of_sorted (le : α → α → Bool) (l : List α)
    (hl : l.Pairwise (fun a b => le a b = true)) :
    stableSortBy le l = l := by
  have h := sortFold_of_sorted le l [] hl (by intro y hy; simp at hy)
  simpa [stableSortBy] using h

/-- Sorting the event list twice is the same as sorting it once. -/
theorem sortEvents_idem (items : List Event) :
    sortEvents (sortEvents items) = sortEvents items := by
  apply stableSortBy_of_sorted
  apply pairwise_stableSortBy
  · intro a b c hab hbc
    simp only [decide_eq_true_eq] at hab hbc ⊢
    omega
  · intro a b
    simp only [decide_eq_true_eq]
    omega

/-- Sorting preserves emptiness of the event list. -/
theorem isEmpty_sortEvents (items : List Event) :
    (sortEvents items).isEmpty = items.isEmpty :=
  isEmpty_stableSortBy _ items

/-- C8: the projection pipeline is deterministic and idempotent — the
pure computation gives the same result on every run over the same list,
and rerunning it on the list as left behind by the first run's in-place
sort also reproduces the first run's output exactly. -/
theorem pipeline_idempotent (gameId : String) (items : List Event) :
    buildRecap gameId items = buildRecap gameId items ∧
    buildRecap gameId (sortEvents items) = buildRecap gameId items := by
  refine ⟨rfl, ?_⟩
  simp only [buildRecap, sortEvents_idem, isEmpty_sortEvents]

/-! ## Invariants of the drive grouping loop -/

/-- Drives emitted when closing an open drive have a non-empty captured
list and no end event. -/
theorem mem_closeOpenDrive (cur : Option CurrentDrive) (d : DriveGroup)
    (hd : d ∈ closeOpenDrive cur) : d.events ≠ [] ∧ d.endEvent = none := by
  cases cur with
  | none => simp [closeOpenDrive] at hd
  | some c =>
    simp only [closeOpenDrive] at hd
    split at hd
    · simp at hd
    · rename_i hne
      rcases List.mem_singleton.mp hd with rfl
      refine ⟨?_, rfl⟩
      simpa [List.isEmpty_iff] using hne

/-- Every drive emitted by the grouping loop has a non-empty
captured-events list. -/
theorem drivesGo_events_ne_nil (evs : List Event) :
    ∀ (cur : Option CurrentDrive) (d : DriveGroup), d ∈ drivesGo cur evs → d.events ≠ [] := by
  induction evs with
  | nil =>
    intro cur d hd
    exact (mem_closeOpenDrive cur d hd).1
  | cons ev rest ih =>
    intro cur d hd
    by_cases h1 : ev.type = "drive_start"
    · simp only [drivesGo, if_pos h1] at hd
      rcases List.mem_append.mp hd with h | h
      · exact (mem_closeOpenDrive cur d h).1
      · exact ih _ d h
    · simp only [drivesGo, if_neg h1] at hd
      cases cur with
      | none => exact ih none d hd
      | some c =>
        by_cases h2 : ev.type = "drive_end"
        · simp only [if_pos h2] at hd
          rcases List.mem_cons.mp hd with rfl | h
          · simp
          · exact ih none d h
        · simp only [if_neg h2] at hd
          exact ih _ d hd

/-- If the loop ends with an open non-empty drive, that dangling drive
is emitted last, without an end event. -/
theorem drivesGo_dangling (evs : List Event) :
    ∀ (cur : Option CurrentDrive) (c : CurrentDrive),
      stateGo cur evs = some c → c.events ≠ [] →
      (drivesGo cur evs).getLast? =
        some { startEvent := c.startEvent, endEvent := none, events := c.events } := by
  induction evs with
  | nil =>
    intro cur c hs hne
    simp only [stateGo] at hs
    subst hs
    simp [drivesGo, closeOpenDrive, List.isEmpty_iff, hne]
  | cons ev rest ih =>
    intro cur c hs hne
    by_cases h1 : ev.type = "drive_start"
    · simp only [stateGo, if_pos h1] at hs
      simp only [drivesGo, if_pos h1]
      rw [List.getLast?_append, ih _ c hs hne]
      rfl
    · simp only [stateGo, if_neg h1] at hs
      simp only [drivesGo, if_neg h1]
      cases cur with
      | none => exact ih none c hs hne
      | some c2 =>
        by_cases h2 : ev.type = "drive_end"
        · simp only [if_pos h2] at hs ⊢
          have hrec := ih none c hs hne
          cases hl : drivesGo none rest with
          | nil => rw [hl] at hrec; exact absurd hrec (by simp)
          | cons y ys =>
            rw [hl] at hrec
            rw [List.getLast?_cons_cons]
            exact hrec
        · simp only [if_neg h2] at hs ⊢
          exact ih _ c hs hne

/-- C5: the drive summarizer never emits a drive whose captured-events
list is empty; and if the stream ends while a drive is still open with
at least one captured event, that dangling drive is emitted (as the last
drive, with no end event). -/
theorem drives_nonempty_dangling (items : List Event) :
    (∀ d ∈ groupDrives items, d.events ≠ []) ∧
    (∀ c : CurrentDrive, stateGo none items = some c → c.events ≠ [] →
      (groupDrives items).getLast? =
        some { startEvent := c.startEvent, endEvent := none, events := c.events }) := by
  constructor
  · intro d hd
    exact drivesGo_events_ne_nil items none d hd
  · intro c hs hne
    exact drivesGo_dangling items none c hs hne

/-- Witness for `drives_nonempty_dangling`: a stream ending mid-drive
with one captured play still emits that drive. -/
theorem drives_nonempty_dangling_witness :
    (groupDrives [{ type := "drive_start" }, { type := "play" }]).getLast? =
      some { startEvent := { type := "drive_start" }, endEvent := none,
             events := [{ type := "play" }] } :=
  (drives_nonempty_dangling [{ type := "drive_start" }, { type := "play" }]).2
    { startEvent := { type := "drive_start" }, events := [{ type := "play" }] }
    (by decide) (by decide)

/-- Grouping a concatenation emits some drives for the prefix and then
continues from the prefix's final machine state. -/
theorem drivesGo_append_decomp (pre : List Event) :
    ∀ (cur : Option CurrentDrive) (rest : List Event),
      ∃ l, drivesGo cur (pre ++ rest) = l ++ drivesGo (stateGo cur pre) rest := by
  induction pre with
  | nil =>
    intro cur rest
    exact ⟨[], by simp [stateGo]⟩
  | cons ev pre2 ih =>
    intro cur rest
    by_cases h1 : ev.type = "drive_start"
    · obtain ⟨l, hl⟩ := ih (some { startEvent := ev, events := [] }) rest
      refine ⟨closeOpenDrive cur ++ l, ?_⟩
      simp only [List.cons_append, drivesGo, stateGo, if_pos h1, List.append_eq]
      rw [hl, List.append_assoc]
    · cases cur with
      | none =>
        obtain ⟨l, hl⟩ := ih none rest
        refine ⟨l, ?_⟩
        simp only [List.cons_append, drivesGo, stateGo, if_neg h1, List.append_eq]
        exact hl
      | some c =>
        by_cases h2 : ev.type = "drive_end"
        · obtain ⟨l, hl⟩ := ih none rest
          refine ⟨{ startEvent := c.startEvent, endEvent := some ev,
                    events := c.events ++ [ev] } :: l, ?_⟩
          simp only [List.cons_append, drivesGo, stateGo, if_neg h1, if_pos h2, List.append_eq]
          rw [hl]
        · obtain ⟨l, hl⟩ := ih (some ⟨c.startEvent, c.events ++ [ev]⟩) rest
          refine ⟨l, ?_⟩
          simp only [List.cons_append, drivesGo, stateGo, if_neg h1, if_neg h2, List.append_eq]
          exact hl

/-- A drive emitted with an end event has that event as the last element
of its captured list. -/
theorem drivesGo_endEvent_last (evs : List Event) :
    ∀ (cur : Option CurrentDrive) (d : DriveGroup) (e : Event),
      d ∈ drivesGo cur evs → d.endEvent = some e → d.events.getLast? = some e := by
  induction evs with
  | nil =>
    intro cur d e hd he
    rcases mem_closeOpenDrive cur d hd with ⟨_, hnone⟩
    rw [hnone] at he
    exact absurd he (by simp)
  | cons ev rest ih =>
    intro cur d e hd he
    by_cases h1 : ev.type = "drive_start"
    · simp only [drivesGo, if_pos h1] at hd
      rcases List.mem_append.mp hd with h | h
      · rcases mem_closeOpenDrive cur d h with ⟨_, hnone⟩
        rw [hnone] at he
        exact absurd he (by simp)
      · exact ih _ d e h he
    · simp only [drivesGo, if_neg h1] at hd
      cases cur with
      | none => exact ih none d e hd he
      | some c =>
        by_cases h2 : ev.type = "drive_end"
        · simp only [if_pos h2] at hd
          rcases List.mem_cons.mp hd with rfl | h
          · obtain rfl := Option.some.inj he
            exact List.getLast?_concat c.events
          · exact ih none d e h he
        · simp only [if_neg h2] at hd
          exact ih _ d e hd he

/-- C9: when a drive is closed by a `drive_end` event, that event has
been appended to the captured-events list (it is its last element)
before the drive is emitted; consequently, a `drive_start` immediately
followed by a `drive_end` yields an emitted drive whose captured list is
exactly the one-element list holding that `drive_end`. -/
theorem driveEnd_capture_spec (items : List Event) :
    (∀ (d : DriveGroup) (e : Event), d ∈ groupDrives items → d.endEvent = some e →
      d.events.getLast? = some e) ∧
    (∀ (pre post : List Event) (s e : Event), items = pre ++ s :: e :: post →
      s.type = "drive_start" → e.type = "drive_end" →
      ({ startEvent := s, endEvent := some e, events := [e] } : DriveGroup) ∈
        groupDrives items) := by
  constructor
  · intro d e hd he
    exact drivesGo_endEvent_last items none d e hd he
  · rintro pre post s e rfl hs he
    obtain ⟨l, hl⟩ := drivesGo_append_decomp pre none (s :: e :: post)
    rw [groupDrives, hl]
    have hne : e.type ≠ "drive_start" := by rw [he]; decide
    simp only [drivesGo, if_pos hs, if_neg hne, if_pos he]
    simp [List.mem_append]

/-- Witness for `driveEnd_capture_spec`: the two-event stream
`[drive_start, drive_end]` emits one drive capturing the `drive_end`. -/
theorem driveEnd_capture_spec_witness :
    ({ startEvent := { type := "drive_start" }, endEvent := some { type := "drive_end" },
       events := [{ type := "drive_end" }] } : DriveGroup) ∈
      groupDrives [{ type := "drive_start" }, { type := "drive_end" }] :=
  (driveEnd_capture_spec [{ type := "drive_start" }, { type := "drive_end" }]).2
    [] [] { type := "drive_start" } { type := "drive_end" } rfl rfl rfl

/-! ## Classification of the non-READY pipeline outcomes -/

/-- C7: for a request with a valid gameId, each of the four non-READY
pipeline outcomes — an empty event list, no `game_start` event, a
`game_start` whose payload lacks a non-empty `homeTeam` or `awayTeam`,
and no scoring plays, no turnovers and no `game_end` event — yields a
not-found outcome whose status code is 404 (never a server error), and
the four error messages are pairwise distinct. -/
theorem failure_states_spec (gameId : String) (items : List Event) :
    (items = [] → buildRecap gameId items =
      .notFound "No events found for gameId") ∧
    (items ≠ [] → (∀ e ∈ items, e.type ≠ "game_start") →
      buildRecap gameId items =
        .notFound "Game metadata (game_start) missing; recap cannot be built yet") ∧
    (items ≠ [] → ∀ gs gsp,
      (sortEvents items).find? (fun i => i.type == "game_start") = some gs →
      gs.payload = some gsp →
      (gsp.homeTeam.getD "" = "" ∨ gsp.awayTeam.getD "" = "") →
      buildRecap gameId items =
        .notFound "game_start missing homeTeam or awayTeam; recap cannot be built yet") ∧
    (items ≠ [] → ∀ gs gsp,
      (sortEvents items).find? (fun i => i.type == "game_start") = some gs →
      gs.payload = some gsp →
      gsp.homeTeam.getD "" ≠ "" → gsp.awayTeam.getD "" ≠ "" →
      extractScoringPlays (sortEvents items) = [] →
      extractTurnovers (sortEvents items) = [] →
      (sortEvents items).find? (fun i => i.type == "game_end") = none →
      buildRecap gameId items =
        .notFound "Game lacks scoring/ending data; recap cannot be built yet") ∧
    (∀ m : String, (BuildResult.notFound m).statusCode = 404) ∧
    (["No events found for gameId",
      "Game metadata (game_start) missing; recap cannot be built yet",
      "game_start missing homeTeam or awayTeam; recap cannot be built yet",
      "Game lacks scoring/ending data; recap cannot be built yet"] :
        List String).Pairwise (fun a b => a ≠ b) := by
  refine ⟨fun h => ?_, fun hne hno => ?_, fun hne gs gsp hfind hpay hteam => ?_,
    fun hne gs gsp hfind hpay hhome haway hplays hturns hge => ?_, fun m => rfl, by decide⟩
  · subst h
    rfl
  · have hemp : items.isEmpty = false := List.isEmpty_eq_false.mpr hne
    have hfind : (sortEvents items).find? (fun i => i.type == "game_start") = none := by
      rw [List.find?_eq_none]
      intro x hx
      simp only [beq_iff_eq]
      exact hno x ((mem_stableSortBy _ items x).mp hx)
    simp [buildRecap, hemp, hfind]
  · have hemp : items.isEmpty = false := List.isEmpty_eq_false.mpr hne
    simp only [buildRecap, hemp, Bool.false_eq_true, if_false, hfind, hpay]
    rw [if_pos hteam]
  · have hemp : items.isEmpty = false := List.isEmpty_eq_false.mpr hne
    have hteam : ¬(gsp.homeTeam.getD "" = "" ∨ gsp.awayTeam.getD "" = "") := by
      rintro (h | h)
      · exact hhome h
      · exact haway h
    simp only [buildRecap, hemp, Bool.false_eq_true, if_false, hfind, hpay]
    rw [if_neg hteam]
    simp [hplays, hturns, hge]

/-- Witness for `failure_states_spec`: the empty event list yields the
no-events 404 message. -/
theorem failure_states_spec_witness :
    buildRecap "game-1" [] = .notFound "No events found for gameId" :=
  (failure_states_spec "game-1" []).1 rfl

/-! ## Characterization of the quarter aggregation -/

/-- Specification helper: the summed points of the plays in exactly
quarter `q` attributed to one side. -/
def quarterPoints (plays : List Play) (homeTeam awayTeam : String) (side : Side) (q : Int) : Int :=
  ((plays.filter (fun sp =>
      decide (sp.quarter = q ∧ resolveSide sp.team homeTeam awayTeam = some side))).map
    (fun sp => sp.points)).sum

/-- Specification helper: the summed points over quarters `1..q` for one
side. -/
def cumPoints (plays : List Play) (homeTeam awayTeam : String) (side : Side) (q : Int) : Int :=
  ((plays.filter (fun sp =>
      decide (1 ≤ sp.quarter ∧ sp.quarter ≤ q ∧
        resolveSide sp.team homeTeam awayTeam = some side))).map
    (fun sp => sp.points)).sum

/-- Specification helper: `max(4, highest observed quarter)`. -/
def maxObservedQuarter (plays : List Play) : Int :=
  plays.foldl (fun m sp => max m sp.quarter) 4

/-- Specification helper: componentwise sum of `f` over
`q0, q0+1, ..., q0+n-1`. -/
def rangeSum (f : Int → Int × Int) (q0 : Int) : Nat → Int × Int
  | 0 => (0, 0)
  | n + 1 =>
    ((rangeSum f q0 n).1 + (f (q0 + n)).1, (rangeSum f q0 n).2 + (f (q0 + n)).2)

/-- Unfolding `quarterPoints` over a cons. -/
theorem quarterPoints_cons (sp : Play) (plays : List Play) (homeTeam awayTeam : String)
    (side : Side) (q : Int) :
    quarterPoints (sp :: plays) homeTeam awayTeam side q =
      (if sp.quarter = q ∧ resolveSide sp.team homeTeam awayTeam = some side
        then sp.points else 0) + quarterPoints plays homeTeam awayTeam side q := by
  by_cases hc : sp.quarter = q ∧ resolveSide sp.team homeTeam awayTeam = some side <;>
    simp [quarterPoints, List.filter_cons, hc]

/-- Unfolding `cumPoints` over a cons. -/
theorem cumPoints_cons (sp : Play) (plays : List Play) (homeTeam awayTeam : String)
    (side : Side) (q : Int) :
    cumPoints (sp :: plays) homeTeam awayTeam side q =
      (if 1 ≤ sp.quarter ∧ sp.quarter ≤ q ∧ resolveSide sp.team homeTeam awayTeam = some side
        then sp.points else 0) + cumPoints plays homeTeam awayTeam side q := by
  by_cases hc : 1 ≤ sp.quarter ∧ sp.quarter ≤ q ∧
      resolveSide sp.team homeTeam awayTeam = some side <;>
    simp [cumPoints, List.filter_cons, hc]

/-- No points are accumulated through quarter `0`. -/
theorem cumPoints_zero (plays : List Play) (homeTeam awayTeam : String) (side : Side) :
    cumPoints plays homeTeam awayTeam side 0 = 0 := by
  induction plays with
  | nil => simp [cumPoints]
  | cons sp rest ih =>
    rw [cumPoints_cons, ih]
    have hc : ¬(1 ≤ sp.quarter ∧ sp.quarter ≤ (0 : Int) ∧
        resolveSide sp.team homeTeam awayTeam = some side) := by
      rintro ⟨h1, h2, _⟩
      omega
    rw [if_neg hc]
    omega

/-- The cumulative sum through quarter `q + 1` adds quarter `q + 1` to
the cumulative sum through quarter `q` (for `q ≥ 0`). -/
theorem cumPoints_succ (plays : List Play) (homeTeam awayTeam : String) (side : Side)
    (q : Int) (hq : 0 ≤ q) :
    cumPoints plays homeTeam awayTeam side (q + 1) =
      cumPoints plays homeTeam awayTeam side q +
        quarterPoints plays homeTeam awayTeam side (q + 1) := by
  induction plays with
  | nil => simp [cumPoints, quarterPoints]
  | cons sp rest ih =>
    rw [cumPoints_cons, cumPoints_cons, quarterPoints_cons, ih]
    by_cases hside : resolveSide sp.team homeTeam awayTeam = some side
    · simp only [hside, and_true]
      split_ifs <;> omega
    · simp only [hside, and_false, if_false]
      omega

/-- Points in a single quarter are non-negative when all play points
are. -/
theorem quarterPoints_nonneg (plays : List Play) (homeTeam awayTeam : String) (side : Side)
    (q : Int) (hp : ∀ sp ∈ plays, 0 ≤ sp.points) :
    0 ≤ quarterPoints plays homeTeam awayTeam side q := by
  apply List.sum_nonneg
  intro x hx
  rcases List.mem_map.mp hx with ⟨sp, hsp, rfl⟩
  exact hp sp (List.mem_of_mem_filter hsp)

/-- The `maxQ` component of one bucketing step. -/
theorem quarterStep_maxQ (homeTeam awayTeam : String) (acc : QuarterAcc) (sp : Play) :
    (quarterStep homeTeam awayTeam acc sp).maxQ = max acc.maxQ sp.quarter := by
  have hmax : (if sp.quarter > acc.maxQ then sp.quarter else acc.maxQ) = max acc.maxQ sp.quarter := by
    rw [max_def]
    split <;> split <;> omega
  simp only [quarterStep]
  cases resolveSide sp.team homeTeam awayTeam with
  | none => exact hmax
  | some side => exact hmax

/-- The `byQuarter` component of one bucketing step. -/
theorem quarterStep_byQuarter (homeTeam awayTeam : String) (acc : QuarterAcc) (sp : Play)
    (q : Int) :
    (quarterStep homeTeam awayTeam acc sp).byQuarter q =
      (match resolveSide sp.team homeTeam awayTeam with
       | some Side.home =>
          if q = sp.quarter then
            ((acc.byQuarter sp.quarter).1 + sp.points, (acc.byQuarter sp.quarter).2)
          else acc.byQuarter q
       | some Side.away =>
          if q = sp.quarter then
            ((acc.byQuarter sp.quarter).1, (acc.byQuarter sp.quarter).2 + sp.points)
          else acc.byQuarter q
       | none => acc.byQuarter q) := by
  simp only [quarterStep]
  cases hside : resolveSide sp.team homeTeam awayTeam with
  | none => rfl
  | some side => cases side <;> rfl

/-- The `maxQ` accumulator of the bucketing fold is the running maximum
of the observed quarters. -/
theorem quarterAcc_maxQ (homeTeam awayTeam : String) (plays : List Play) :
    ∀ (acc : QuarterAcc),
      (plays.foldl (quarterStep homeTeam awayTeam) acc).maxQ =
        plays.foldl (fun m sp => max m sp.quarter) acc.maxQ := by
  induction plays with
  | nil => intro acc; rfl
  | cons sp rest ih =>
    intro acc
    simp only [List.foldl_cons]
    rw [ih, quarterStep_maxQ]

/-- The bucketing fold only grows `maxQ`. -/
theorem le_foldl_max (plays : List Play) :
    ∀ m0 : Int, m0 ≤ plays.foldl (fun m sp => max m sp.quarter) m0 := by
  induction plays with
  | nil => intro m0; simp
  | cons sp rest ih =>
    intro m0
    simp only [List.foldl_cons]
    exact le_trans (le_max_left m0 sp.quarter) (ih (max m0 sp.quarter))

/-- Pointwise value of the `byQuarter` map built by the bucketing fold:
each key holds the per-quarter side sums on top of the initial map. -/
theorem quarterAcc_byQuarter (homeTeam awayTeam : String) (plays : List Play) :
    ∀ (acc : QuarterAcc) (q : Int),
      (plays.foldl (quarterStep homeTeam awayTeam) acc).byQuarter q =
        ((acc.byQuarter q).1 + quarterPoints plays homeTeam awayTeam .home q,
         (acc.byQuarter q).2 + quarterPoints plays homeTeam awayTeam .away q) := by
  induction plays with
  | nil =>
    intro acc q
    simp [quarterPoints]
  | cons sp rest ih =>
    intro acc q
    simp only [List.foldl_cons]
    rw [ih, quarterPoints_cons, quarterPoints_cons, Prod.mk.injEq]
    cases hside : resolveSide sp.team homeTeam awayTeam with
    | none =>
      simp [quarterStep_byQuarter, hside]
    | some side =>
      cases side with
      | home =>
        by_cases hq : q = sp.quarter
        · subst hq
          simp [quarterStep_byQuarter, hside]
          omega
        · have hq2 : ¬(sp.quarter = q) := fun hh => hq hh.symm
          simp [quarterStep_byQuarter, hside, hq, hq2]
      | away =>
        by_cases hq : q = sp.quarter
        · subst hq
          simp [quarterStep_byQuarter, hside]
          omega
        · have hq2 : ¬(sp.quarter = q) := fun hh => hq hh.symm
          simp [quarterStep_byQuarter, hside, hq, hq2]

/-- Length of the cumulative emission loop. -/
theorem cumQuarters_length (f : Int → Int × Int) :
    ∀ (n : Nat) (q0 ch ca : Int), (cumQuarters f q0 n ch ca).length = n := by
  intro n
  induction n with
  | zero => intro q0 ch ca; rfl
  | succ n ih =>
    intro q0 ch ca
    simp [cumQuarters, ih]

/-- Shifting the base of a range sum by one. -/
theorem rangeSum_shift (f : Int → Int × Int) :
    ∀ (m : Nat) (q0 : Int),
      rangeSum f q0 (m + 1) =
        ((f q0).1 + (rangeSum f (q0 + 1) m).1, (f q0).2 + (rangeSum f (q0 + 1) m).2) := by
  intro m
  induction m with
  | zero =>
    intro q0
    simp [rangeSum]
  | succ m ih =>
    intro q0
    have lhs_eq : rangeSum f q0 (m + 1 + 1) =
        ((rangeSum f q0 (m + 1)).1 + (f (q0 + ((m : Int) + 1))).1,
         (rangeSum f q0 (m + 1)).2 + (f (q0 + ((m : Int) + 1))).2) := by
      simp [rangeSum]
    have rhs_eq : rangeSum f (q0 + 1) (m + 1) =
        ((rangeSum f (q0 + 1) m).1 + (f (q0 + 1 + (m : Int))).1,
         (rangeSum f (q0 + 1) m).2 + (f (q0 + 1 + (m : Int))).2) := by
      simp [rangeSum]
    rw [lhs_eq, ih q0, rhs_eq]
    have hidx : q0 + ((m : Int) + 1) = q0 + 1 + (m : Int) := by ring
    rw [hidx, Prod.mk.injEq]
    constructor <;> ring

/-- Positional characterization of the cumulative emission loop. -/
theorem cumQuarters_get? (f : Int → Int × Int) :
    ∀ (n : Nat) (q0 ch ca : Int) (j : Nat),
      (cumQuarters f q0 n ch ca).get? j =
        if j < n then
          some { quarter := q0 + j,
                 homePoints := ch + (rangeSum f q0 (j + 1)).1,
                 awayPoints := ca + (rangeSum f q0 (j + 1)).2 }
        else none := by
  intro n
  induction n with
  | zero =>
    intro q0 ch ca j
    simp [cumQuarters]
  | succ n ih =>
    intro q0 ch ca j
    cases j with
    | zero =>
      simp [cumQuarters, rangeSum]
    | succ j =>
      simp only [cumQuarters, List.get?_cons_succ]
      rw [ih (q0 + 1) (ch + (f q0).1) (ca + (f q0).2) j]
      by_cases hj : j < n
      · rw [if_pos hj, if_pos (by omega)]
        rw [rangeSum_shift f (j + 1) q0]
        simp only [Option.some.injEq, QuarterScoreEntry.mk.injEq]
        refine ⟨by push_cast; ring, by ring, by ring⟩
      · rw [if_neg hj, if_neg (by omega)]

/-- The emission loop only reads the bucket map at the emitted quarters,
so maps agreeing from the base quarter on are interchangeable. -/
theorem cumQuarters_congr (f g : Int → Int × Int) :
    ∀ (n : Nat) (q0 ch ca : Int), (∀ q : Int, q0 ≤ q → f q = g q) →
      cumQuarters f q0 n ch ca = cumQuarters g q0 n ch ca := by
  intro n
  induction n with
  | zero => intro q0 ch ca _; rfl
  | succ n ih =>
    intro q0 ch ca h
    simp only [cumQuarters]
    rw [h q0 le_rfl]
    rw [ih (q0 + 1) (ch + (g q0).1) (ca + (g q0).2) (fun q hq => h q (by omega))]

/-- The range sum of the bucket map built from the empty accumulator is
the cumulative per-side score. -/
theorem rangeSum_byQuarter (homeTeam awayTeam : String) (plays : List Play) :
    ∀ m : Nat,
      rangeSum ((plays.foldl (quarterStep homeTeam awayTeam)
          ⟨fun _ => (0, 0), 4⟩).byQuarter) 1 m =
        (cumPoints plays homeTeam awayTeam .home m,
         cumPoints plays homeTeam awayTeam .away m) := by
  intro m
  induction m with
  | zero =>
    simp [rangeSum, cumPoints_zero]
  | succ m ih =>
    have hstep : rangeSum ((plays.foldl (quarterStep homeTeam awayTeam)
        ⟨fun _ => (0, 0), 4⟩).byQuarter) 1 (m + 1) =
        ((rangeSum ((plays.foldl (quarterStep homeTeam awayTeam)
            ⟨fun _ => (0, 0), 4⟩).byQuarter) 1 m).1 +
          (((plays.foldl (quarterStep homeTeam awayTeam)
            ⟨fun _ => (0, 0), 4⟩).byQuarter) (1 + (m : Int))).1,
         (rangeSum ((plays.foldl (quarterStep homeTeam awayTeam)
            ⟨fun _ => (0, 0), 4⟩).byQuarter) 1 m).2 +
          (((plays.foldl (quarterStep homeTeam awayTeam)
            ⟨fun _ => (0, 0), 4⟩).byQuarter) (1 + (m : Int))).2) := by
      simp [rangeSum]
    rw [hstep, ih]
    rw [quarterAcc_byQuarter homeTeam awayTeam plays ⟨fun _ => (0, 0), 4⟩ (1 + (m : Int))]
    rw [show ((1 : Int) + (m : Int)) = (m : Int) + 1 from by ring]
    rw [Prod.mk.injEq]
    constructor
    · rw [show ((m + 1 : Nat) : Int) = (m : Int) + 1 from by push_cast; ring]
      rw [cumPoints_succ plays homeTeam awayTeam .home (m : Int) (Int.natCast_nonneg m)]
      simp
    · rw [show ((m + 1 : Nat) : Int) = (m : Int) + 1 from by push_cast; ring]
      rw [cumPoints_succ plays homeTeam awayTeam .away (m : Int) (Int.natCast_nonneg m)]
      simp

/-- Unfolding `groupPointsByQuarter` into its two loops. -/
theorem groupPointsByQuarter_eq (plays : List Play) (homeTeam awayTeam : String) :
    groupPointsByQuarter plays homeTeam awayTeam =
      cumQuarters ((plays.foldl (quarterStep homeTeam awayTeam)
          ⟨fun _ => (0, 0), 4⟩).byQuarter) 1
        ((plays.foldl (quarterStep homeTeam awayTeam)
          ⟨fun _ => (0, 0), 4⟩).maxQ).toNat 0 0 := rfl

/-- C2 counterexample: extraction keeps any finite numeric
`payload.points`, including negative values, so the cumulative quarter
totals need not be non-decreasing — here the home column reads
`[5, 2, 2, 2]`, dropping from 5 to 2 between quarters 1 and 2. -/
theorem quarters_decreasing_cex :
    (groupPointsByQuarter (extractScoringPlays
      [{ type := "score",
         payload := some { quarter := some (.int 1), team := some "home",
                           points := some (.int 5) } },
       { payload := some { quarter := some (.int 2), team := some "home",
                           points := some (.int (-3)) } }]) "Titans" "Wraiths").map
      (fun e => e.homePoints) = [5, 2, 2, 2] ∧ ¬((5 : Int) ≤ 2) := by
  exact ⟨by decide, by decide⟩

/-- C2 (amended): the aggregator output has one entry per quarter from 1
through `max(4, highest observed quarter)` (so its length is at least
4), and entry `j` (0-based) holds the cumulative side-resolved totals of
quarters `1..j+1`; when every extracted play's points are non-negative —
which the extractor does not enforce — both columns are non-decreasing
across successive entries. -/
theorem groupPointsByQuarter_spec (plays : List Play) (homeTeam awayTeam : String) :
    4 ≤ (groupPointsByQuarter plays homeTeam awayTeam).length ∧
    (groupPointsByQuarter plays homeTeam awayTeam).length = (maxObservedQuarter plays).toNat ∧
    (∀ j : Nat, (groupPointsByQuarter plays homeTeam awayTeam).get? j =
      if j < (maxObservedQuarter plays).toNat then
        some { quarter := 1 + (j : Int),
               homePoints := cumPoints plays homeTeam awayTeam .home ((j : Int) + 1),
               awayPoints := cumPoints plays homeTeam awayTeam .away ((j : Int) + 1) }
      else none) ∧
    ((∀ sp ∈ plays, 0 ≤ sp.points) → ∀ (j : Nat) (e1 e2 : QuarterScoreEntry),
      (groupPointsByQuarter plays homeTeam awayTeam).get? j = some e1 →
      (groupPointsByQuarter plays homeTeam awayTeam).get? (j + 1) = some e2 →
      e1.homePoints ≤ e2.homePoints ∧ e1.awayPoints ≤ e2.awayPoints) := by
  have hmax : (plays.foldl (quarterStep homeTeam awayTeam) ⟨fun _ => (0, 0), 4⟩).maxQ =
      maxObservedQuarter plays :=
    quarterAcc_maxQ homeTeam awayTeam plays ⟨fun _ => (0, 0), 4⟩
  have h4 : (4 : Int) ≤ maxObservedQuarter plays := le_foldl_max plays 4
  have hlen : (groupPointsByQuarter plays homeTeam awayTeam).length =
      (maxObservedQuarter plays).toNat := by
    rw [groupPointsByQuarter_eq, cumQuarters_length, hmax]
  have hget : ∀ j : Nat, (groupPointsByQuarter plays homeTeam awayTeam).get? j =
      if j < (maxObservedQuarter plays).toNat then
        some { quarter := 1 + (j : Int),
               homePoints := cumPoints plays homeTeam awayTeam .home ((j : Int) + 1),
               awayPoints := cumPoints plays homeTeam awayTeam .away ((j : Int) + 1) }
      else none := by
    intro j
    rw [groupPointsByQuarter_eq, cumQuarters_get?, hmax]
    by_cases hj : j < (maxObservedQuarter plays).toNat
    · rw [if_pos hj, if_pos hj, rangeSum_byQuarter]
      simp only [Option.some.injEq, QuarterScoreEntry.mk.injEq]
      refine ⟨trivial, ?_, ?_⟩ <;>
        · rw [show ((j + 1 : Nat) : Int) = (j : Int) + 1 from by push_cast; ring]
          omega
    · rw [if_neg hj, if_neg hj]
  refine ⟨by omega, hlen, hget, ?_⟩
  intro hp j e1 e2 h1 h2
  rw [hget j] at h1
  rw [hget (j + 1)] at h2
  by_cases hj1 : j < (maxObservedQuarter plays).toNat
  · rw [if_pos hj1] at h1
    by_cases hj2 : j + 1 < (maxObservedQuarter plays).toNat
    · rw [if_pos hj2] at h2
      obtain rfl := Option.some.inj h1
      obtain rfl := Option.some.inj h2
      have hcast : (((j + 1 : Nat)) : Int) + 1 = ((j : Int) + 1) + 1 := by push_cast; ring
      have hcH := cumPoints_succ plays homeTeam awayTeam .home ((j : Int) + 1) (by omega)
      have hcA := cumPoints_succ plays homeTeam awayTeam .away ((j : Int) + 1) (by omega)
      have hnH := quarterPoints_nonneg plays homeTeam awayTeam .home ((j : Int) + 1 + 1) hp
      have hnA := quarterPoints_nonneg plays homeTeam awayTeam .away ((j : Int) + 1 + 1) hp
      constructor <;> simp only [] <;> rw [hcast] <;> omega
    · rw [if_neg hj2] at h2
      cases h2
  · rw [if_neg hj1] at h1
    cases h1

/-- Witness for `groupPointsByQuarter_spec`: with one 7-point home play
in quarter 1, successive entries are non-decreasing. -/
theorem groupPointsByQuarter_spec_witness :
    ({ quarter := 1, homePoints := 7, awayPoints := 0 } : QuarterScoreEntry).homePoints ≤
      ({ quarter := 2, homePoints := 7, awayPoints := 0 } : QuarterScoreEntry).homePoints ∧
    ({ quarter := 1, homePoints := 7, awayPoints := 0 } : QuarterScoreEntry).awayPoints ≤
      ({ quarter := 2, homePoints := 7, awayPoints := 0 } : QuarterScoreEntry).awayPoints :=
  (groupPointsByQuarter_spec (extractScoringPlays
      [{ type := "score",
         payload := some { quarter := some (.int 1), team := some "home",
                           points := some (.int 7) } }]) "Titans" "Wraiths").2.2.2
    (by decide) 0
    { quarter := 1, homePoints := 7, awayPoints := 0 }
    { quarter := 2, homePoints := 7, awayPoints := 0 } (by decide) (by decide)

/-! ## Plays in out-of-range quarters -/

/-- Shifting the accumulator of the tier-3 sum. -/
theorem sumPlayPoints_shift (homeTeam awayTeam : String) (plays : List Play) :
    ∀ init : Int × Int,
      plays.foldl (fun acc sp =>
        match resolveSide sp.team homeTeam awayTeam with
        | some .home => (acc.1 + sp.points, acc.2)
        | some .away => (acc.1, acc.2 + sp.points)
        | none => acc) init =
      (init.1 + (sumPlayPoints plays homeTeam awayTeam).1,
       init.2 + (sumPlayPoints plays homeTeam awayTeam).2) := by
  induction plays with
  | nil =>
    intro init
    simp [sumPlayPoints]
  | cons sp rest ih =>
    intro init
    simp only [sumPlayPoints, List.foldl_cons]
    rw [ih, ih]
    cases hside : resolveSide sp.team homeTeam awayTeam with
    | none => simp
    | some side =>
      cases side <;> simp <;> omega

/-- The tier-3 sum over a cons adds the head play's points on its
resolved side, regardless of the play's quarter. -/
theorem sumPlayPoints_cons (sp : Play) (plays : List Play) (homeTeam awayTeam : String) :
    sumPlayPoints (sp :: plays) homeTeam awayTeam =
      (match resolveSide sp.team homeTeam awayTeam with
       | some Side.home => ((sumPlayPoints plays homeTeam awayTeam).1 + sp.points,
           (sumPlayPoints plays homeTeam awayTeam).2)
       | some Side.away => ((sumPlayPoints plays homeTeam awayTeam).1,
           (sumPlayPoints plays homeTeam awayTeam).2 + sp.points)
       | none => sumPlayPoints plays homeTeam awayTeam) := by
  simp only [sumPlayPoints, List.foldl_cons]
  rw [sumPlayPoints_shift]
  cases hside : resolveSide sp.team homeTeam awayTeam with
  | none => simp [sumPlayPoints]
  | some side =>
    cases side <;> simp [sumPlayPoints] <;> omega

/-- Accumulators agreeing on `maxQ` and on every bucket key `≥ 1` keep
agreeing through the bucketing fold. -/
theorem quarterAcc_congr (homeTeam awayTeam : String) (plays : List Play) :
    ∀ (acc1 acc2 : QuarterAcc), acc1.maxQ = acc2.maxQ →
      (∀ q : Int, 1 ≤ q → acc1.byQuarter q = acc2.byQuarter q) →
      (plays.foldl (quarterStep homeTeam awayTeam) acc1).maxQ =
        (plays.foldl (quarterStep homeTeam awayTeam) acc2).maxQ ∧
      (∀ q : Int, 1 ≤ q →
        (plays.foldl (quarterStep homeTeam awayTeam) acc1).byQuarter q =
        (plays.foldl (quarterStep homeTeam awayTeam) acc2).byQuarter q) := by
  induction plays with
  | nil =>
    intro acc1 acc2 hm hb
    exact ⟨hm, hb⟩
  | cons sp rest ih =>
    intro acc1 acc2 hm hb
    simp only [List.foldl_cons]
    apply ih
    · rw [quarterStep_maxQ, quarterStep_maxQ, hm]
    · intro q hq
      rw [quarterStep_byQuarter, quarterStep_byQuarter]
      cases hside : resolveSide sp.team homeTeam awayTeam with
      | none => exact hb q hq
      | some side =>
        by_cases hq2 : q = sp.quarter
        · have hbq : acc1.byQuarter sp.quarter = acc2.byQuarter sp.quarter :=
            hq2 ▸ hb q hq
          cases side <;> simp [hq2, hbq]
        · cases side <;> simp [hq2] <;> exact hb q hq

/-- A play in a quarter below 1 leaves the emitted quarter entries
unchanged: its bucket key is never read by the emission loop. -/
theorem groupPointsByQuarter_low_quarter (sp : Play) (plays : List Play)
    (homeTeam awayTeam : String) (hq : sp.quarter < 1) :
    groupPointsByQuarter (sp :: plays) homeTeam awayTeam =
      groupPointsByQuarter plays homeTeam awayTeam := by
  rw [groupPointsByQuarter_eq, groupPointsByQuarter_eq]
  simp only [List.foldl_cons]
  have hm0 : (quarterStep homeTeam awayTeam ⟨fun _ => (0, 0), 4⟩ sp).maxQ =
      (⟨fun _ => (0, 0), 4⟩ : QuarterAcc).maxQ := by
    rw [quarterStep_maxQ]
    show max (4 : Int) sp.quarter = (4 : Int)
    omega
  have hb0 : ∀ q : Int, 1 ≤ q →
      (quarterStep homeTeam awayTeam ⟨fun _ => (0, 0), 4⟩ sp).byQuarter q =
      (⟨fun _ => (0, 0), 4⟩ : QuarterAcc).byQuarter q := by
    intro q hq1
    rw [quarterStep_byQuarter]
    have hne : ¬(q = sp.quarter) := by omega
    cases resolveSide sp.team homeTeam awayTeam with
    | none => rfl
    | some side => cases side <;> simp [hne]
  obtain ⟨hm, hb⟩ := quarterAcc_congr homeTeam awayTeam plays
    (quarterStep homeTeam awayTeam ⟨fun _ => (0, 0), 4⟩ sp) ⟨fun _ => (0, 0), 4⟩ hm0 hb0
  rw [hm]
  apply cumQuarters_congr
  intro q hq1
  exact hb q hq1

/-- C10: a scoring play whose integer payload quarter is below 1 is
retained by the extractor, contributes its points to the tier-3 summed
final score (the sum ignores quarters entirely), yet contributes nothing
to any quarter entry (the emission loop never reads bucket keys below
1); consequently the tier-3 final-score totals can exceed the cumulative
totals of the last quarter entry, as the concrete quarter-0 play here
shows: final score (7, 0) against a last quarter entry of (0, 0). -/
theorem low_quarter_plays_spec :
    (∀ (items : List Event) (ev : Event) (pl : Play), ev ∈ items →
      mkScoringPlay ev = some pl → pl.quarter < 1 →
      pl ∈ extractScoringPlays items) ∧
    (∀ (sp : Play) (plays : List Play) (homeTeam awayTeam : String), sp.quarter < 1 →
      sumPlayPoints (sp :: plays) homeTeam awayTeam =
        (match resolveSide sp.team homeTeam awayTeam with
         | some Side.home => ((sumPlayPoints plays homeTeam awayTeam).1 + sp.points,
             (sumPlayPoints plays homeTeam awayTeam).2)
         | some Side.away => ((sumPlayPoints plays homeTeam awayTeam).1,
             (sumPlayPoints plays homeTeam awayTeam).2 + sp.points)
         | none => sumPlayPoints plays homeTeam awayTeam)) ∧
    (∀ (sp : Play) (plays : List Play) (homeTeam awayTeam : String), sp.quarter < 1 →
      groupPointsByQuarter (sp :: plays) homeTeam awayTeam =
        groupPointsByQuarter plays homeTeam awayTeam) ∧
    (resolveFinalScore none (extractScoringPlays
        [{ payload := some { quarter := some (.int 0), team := some "home",
                             points := some (.int 7) } }]) "Titans" "Wraiths" = (7, 0) ∧
     (groupPointsByQuarter (extractScoringPlays
        [{ payload := some { quarter := some (.int 0), team := some "home",
                             points := some (.int 7) } }]) "Titans" "Wraiths").getLast? =
       some { quarter := 4, homePoints := 0, awayPoints := 0 } ∧
     (0 : Int) < 7) := by
  refine ⟨?_, ?_, ?_, by decide, by decide, by decide⟩
  · intro items ev pl hmem hmk _
    exact (mem_stableSortBy _ _ pl).mpr (List.mem_filterMap.mpr ⟨ev, hmem, hmk⟩)
  · intro sp plays homeTeam awayTeam _
    exact sumPlayPoints_cons sp plays homeTeam awayTeam
  · intro sp plays homeTeam awayTeam hq
    exact groupPointsByQuarter_low_quarter sp plays homeTeam awayTeam hq

/-- Witness for `low_quarter_plays_spec`: the quarter-0 play is retained
in the extracted scoring plays. -/
theorem low_quarter_plays_spec_witness :
    ({ quarter := 0, clock := "", team := "home", type := "", description := "", points := 7,
       ts := 0, eventId := none,
       payload := { quarter := some (.int 0), team := some "home",
                    points := some (.int 7) } } : Play) ∈
      extractScoringPlays
        [{ payload := some { quarter := some (.int 0), team := some "home",
                             points := some (.int 7) } }] :=
  low_quarter_plays_spec.1
    [{ payload := some { quarter := some (.int 0), team := some "home",
                         points := some (.int 7) } }]
    { payload := some { quarter := some (.int 0), team := some "home",
                        points := some (.int 7) } }
    { quarter := 0, clock := "", team := "home", type := "", description := "", points := 7,
      ts := 0, eventId := none,
      payload := { quarter := some (.int 0), team := some "home",
                   points := some (.int 7) } }
    (by decide) (by decide) (by decide)
